import Mathlib

/-!
# NAUGPT retrieval pipeline — shallow embedding and verification

This file embeds the retrieval-and-validation core of the NAUGPT repository
(`database.py`, `query_router.py`, `result_validator.py`, `assistant.py`)
as executable Lean definitions and proves or refutes the specified claims.

Floating-point scores are modelled as rationals; external services
(vector encoder, document store, reasoning model) are modelled as oracle
parameters returning `Except`/`Option` values, so that theorems quantify
over every possible behaviour of those collaborators.
-/

namespace NAU

/-- Document metadata, the fields read by the retrieval core
(`metadata.get(...)` in the Python source); an absent key is `none`. -/
structure Metadata where
  title : Option String := none
  faculty : Option String := none
  department : Option String := none
  category : Option String := none
  source : Option String := none
deriving Repr, DecidableEq

/-- One search hit, as the dictionaries produced in `database.py`
(`content`, `metadata`, `distance`, `relevance_score`, `id`, `search_type`). -/
structure SearchResult where
  content : String
  metadata : Metadata
  distance : ℚ
  relevance_score : ℚ
  id : String
  search_type : String
deriving Repr, DecidableEq

/-- Model of `RouteDecision` from `query_router.py`. -/
structure RouteDecision where
  search_scope : String
  search_level : String
  target_entity : Option String
  search_intent : String
  enhancement_keywords : List String
  confidence : ℚ
  reasoning : String
  needs_database_search : Bool
deriving Repr, DecidableEq

/-- Model of `ValidationDecision` from `result_validator.py`.  The model keeps the
LLM-supplied 1-based indices as integers, as arbitrary JSON numbers reach
this field in the source. -/
structure ValidationDecision where
  is_relevant : Bool
  selected_indices : List Int
  confidence : ℚ
  reasoning : String
  needs_reformulation : Bool
  reformulated_query : Option String := none
  reformulation_strategy : Option String := none
deriving Repr, DecidableEq

/-! ## Python string primitives used by the source -/

/-- Lower-casing as Python `str.lower()` on the alphabets appearing in this
repository: ASCII plus the Cyrillic letters (А–Я, Ё, Є, І, Ї, Ґ). -/
def charLower (c : Char) : Char :=
  let n := c.toNat
  if 0x41 ≤ n ∧ n ≤ 0x5A then Char.ofNat (n + 0x20)
  else if 0x410 ≤ n ∧ n ≤ 0x42F then Char.ofNat (n + 0x20)
  else if n = 0x401 then Char.ofNat 0x451
  else if n = 0x404 then Char.ofNat 0x454
  else if n = 0x406 then Char.ofNat 0x456
  else if n = 0x407 then Char.ofNat 0x457
  else if n = 0x490 then Char.ofNat 0x491
  else c

/-- Upper-casing as Python `str.upper()` on the same alphabets. -/
def charUpper (c : Char) : Char :=
  let n := c.toNat
  if 0x61 ≤ n ∧ n ≤ 0x7A then Char.ofNat (n - 0x20)
  else if 0x430 ≤ n ∧ n ≤ 0x44F then Char.ofNat (n - 0x20)
  else if n = 0x451 then Char.ofNat 0x401
  else if n = 0x454 then Char.ofNat 0x404
  else if n = 0x456 then Char.ofNat 0x406
  else if n = 0x457 then Char.ofNat 0x407
  else if n = 0x491 then Char.ofNat 0x490
  else c

def pyLower (s : String) : String := String.mk (s.data.map charLower)

def pyUpper (s : String) : String := String.mk (s.data.map charUpper)

def isSpaceChar (c : Char) : Bool :=
  c = ' ' ∨ c = '\t' ∨ c = '\n' ∨ c = '\r'

/-- Accumulating splitter behind `pySplitWs`: `acc` holds the characters of
the current word in reverse. -/
def splitWsAux : List Char → List Char → List String
  | [], acc => if acc = [] then [] else [String.mk acc.reverse]
  | c :: rest, acc =>
    if isSpaceChar c then
      if acc = [] then splitWsAux rest []
      else String.mk acc.reverse :: splitWsAux rest []
    else splitWsAux rest (c :: acc)

/-- Python `str.split()` with no argument: split on whitespace runs,
discarding empty pieces. -/
def pySplitWs (s : String) : List String := splitWsAux s.data []

/-- Core scan of Python `str.count(pat)`: non-overlapping occurrences,
scanning left to right; `skip` is the number of positions still covered by
the previous match.  An empty pattern matches before every position and at
the end, giving `len + 1`. -/
def pyCountAux (pat : List Char) : List Char → Nat → Nat
  | [], _ => if pat.isEmpty then 1 else 0
  | c :: rest, skip =>
    if 0 < skip then pyCountAux pat rest (skip - 1)
    else if pat.isPrefixOf (c :: rest) then 1 + pyCountAux pat rest (pat.length - 1)
    else pyCountAux pat rest 0

/-- Python `s.count(pat)`. -/
def pyCount (s pat : String) : Nat := pyCountAux pat.data s.data 0

/-- Python `pat in s` (substring containment). -/
def strContains (s pat : String) : Bool := decide (0 < pyCount s pat)

/-- Length of a longest common subsequence, defined with an explicit fuel
argument so that it evaluates by structural recursion; the fuel decreases
by exactly one per recursive call, so `|l1| + |l2|` is always sufficient. -/
def lcsLenFuel : Nat → List Char → List Char → Nat
  | 0, _, _ => 0
  | _ + 1, [], _ => 0
  | _ + 1, _ :: _, [] => 0
  | fuel + 1, a :: as, b :: bs =>
    if a = b then lcsLenFuel fuel as bs + 1
    else max (lcsLenFuel fuel (a :: as) bs) (lcsLenFuel fuel as (b :: bs))

/-- Length of a longest common subsequence, used to model `rapidfuzz`. -/
def lcsLen (l1 l2 : List Char) : Nat := lcsLenFuel (l1.length + l2.length) l1 l2

/-- Modelled from the external `rapidfuzz` dependency: `fuzz.ratio` is the
normalized InDel similarity on a 0–100 scale,
`200 * LCS(s1, s2) / (|s1| + |s2|)`, with two empty strings scoring 100. -/
def fuzzSimilarity (s1 s2 : String) : ℚ :=
  let m := s1.data.length
  let n := s2.data.length
  if m + n = 0 then 100 else 200 * (lcsLen s1.data s2.data : ℚ) / ((m : ℚ) + n)

/-- The inner fuzzy loops of `_calculate_keyword_score`: does any word of
the list have fuzzy similarity above 85 to the keyword? -/
def fuzzyHit (words : List String) (keyword : String) : Bool :=
  words.any (fun word => 85 < fuzzSimilarity keyword word)

/-! ## Lexical scorer (`VectorDatabase._calculate_keyword_score`,
`VectorDatabase._extract_keywords`, `VectorDatabase._keyword_search`) -/

/-- The per-keyword update of the running score inside the loop of
`_calculate_keyword_score`: +30 for a title substring hit, +3 per raw
occurrence in the body, and — only for keywords longer than 3 characters —
+8 for a fuzzy title-word match and +4 (once) for a fuzzy body-word match. -/
def keywordStep (content_lower title : String) (score : ℚ) (keyword : String) : ℚ :=
  let score := if strContains title keyword then score + 30 else score
  let score := score + (pyCount content_lower keyword : ℚ) * 3
  if 3 < keyword.length then
    let score := if fuzzyHit (pySplitWs title) keyword then score + 8 else score
    if fuzzyHit (pySplitWs content_lower) keyword then score + 4 else score
  else score

/-- Model of `VectorDatabase._calculate_keyword_score(content, keywords, metadata)`. -/
def calculateKeywordScore (content : String) (keywords : List String) (metadata : Metadata) : ℚ :=
  let content_lower := pyLower content
  let title := pyLower (metadata.title.getD "")
  keywords.foldl (keywordStep content_lower title) 0

/-- The stop-word set of `VectorDatabase._extract_keywords`. -/
def stopWords : List String :=
  ["як", "мені", "для", "на", "в", "з", "по", "і", "а", "але", "або", "те", "що",
   "хто", "коли", "де", "чому", "який", "яка", "яке", "чи", "є", "був", "була",
   "розкажи", "скажи", "покажи", "знайди", "дай", "такий", "така", "таке"]

/-- Python word characters for the regex `[^\w\s]`: ASCII alphanumerics,
underscore, and the Cyrillic letters used by this repository. -/
def isWordChar (c : Char) : Bool :=
  c.isAlphanum ∨ c = '_' ∨ (0x400 ≤ c.toNat ∧ c.toNat ≤ 0x4FF)

/-- Model of `VectorDatabase._extract_keywords`: lowercase, replace every character
that is neither a word character nor whitespace by a space, split on
whitespace, keep tokens longer than 2 characters that are not stop words,
and when at most two keywords remain append their space-joined
concatenation. -/
def extractKeywords (query : String) : List String :=
  let clean_query := String.mk ((pyLower query).data.map
    (fun c => if isWordChar c ∨ isSpaceChar c then c else ' '))
  let words := (pySplitWs clean_query).filter (fun w => 2 < w.length)
  let keywords := words.filter (fun w => ¬ stopWords.contains w)
  if keywords.length ≤ 2 ∧ keywords ≠ [] then
    keywords ++ [String.intercalate " " keywords]
  else keywords

/-- A document as stored in the collection: the data `collection.get`
returns for it. -/
structure StoredDoc where
  id : String
  content : String
  metadata : Metadata
deriving Repr, DecidableEq

/-- Comparator used to model Python's stable `list.sort(key=score,
reverse=True)`: descending by `relevance_score`, ties keeping their
original order. -/
def scoreDesc (a b : SearchResult) : Bool := b.relevance_score ≤ a.relevance_score

/-- Model of `VectorDatabase._keyword_search`: fetch the documents matching the
equality filter (`source = "news"`, plus the category when given), score
each against the extracted keywords, keep strictly positive scores, sort
descending and truncate.  The store's `get` is modelled as filtering the
corpus list. -/
def keywordSearch (corpus : List StoredDoc) (query : String) (maxResults : Nat)
    (categoryFilter : Option String) : List SearchResult :=
  let keywords := extractKeywords query
  let docs := corpus.filter (fun d =>
    d.metadata.source = some "news" &&
      match categoryFilter with
      | some c => d.metadata.category = some c
      | none => true)
  let scored := docs.filterMap (fun d =>
    let score := calculateKeywordScore d.content keywords d.metadata
    if 0 < score then
      some { content := d.content, metadata := d.metadata,
             distance := 1 - score / 10, relevance_score := score,
             id := d.id, search_type := "keyword" }
    else none)
  ((scored.mergeSort scoreDesc).take maxResults)

/-! ## Result fuser (`VectorDatabase._combine_results`) -/

/-- The seed score of a vector hit in `_combine_results`:
`max(0, (2 - distance) * 50) + max(0, (10 - rank) * 5)` with `rank` the
0-based position in the vector result list. -/
def vecSeedScore (distance : ℚ) (rank : Nat) : ℚ :=
  max 0 ((2 - distance) * 50) + max 0 ((10 - (rank : ℚ)) * 5)

/-- A vector hit as seeded into the fused map. -/
def seedEntry (r : SearchResult) (rank : Nat) : SearchResult :=
  { r with relevance_score := vecSeedScore r.distance rank, search_type := "embedding" }

/-- A lexical hit inserted fresh into the fused map: three times its
lexical score, origin `"keyword"`. -/
def lexEntry (r : SearchResult) : SearchResult :=
  { r with relevance_score := r.relevance_score * 3, search_type := "keyword" }

/-- Boosting an already-present entry with a lexical hit: add twice the
lexical score, origin becomes `"hybrid"`. -/
def hybridBoost (cur kw : SearchResult) : SearchResult :=
  { cur with relevance_score := cur.relevance_score + kw.relevance_score * 2,
             search_type := "hybrid" }

/-- Python `dict` insertion on an association list: an existing key is
updated in place (its position is preserved), a new key is appended. -/
def dictInsert (m : List (String × SearchResult)) (k : String) (v : SearchResult) :
    List (String × SearchResult) :=
  if m.any (fun p => p.1 = k) then m.map (fun p => if p.1 = k then (k, v) else p)
  else m ++ [(k, v)]

/-- Python `key in dict` / `dict[key]` lookup. -/
def dictFind (m : List (String × SearchResult)) (k : String) : Option SearchResult :=
  (m.find? (fun p => p.1 = k)).map (fun p => p.2)

/-- One iteration of the keyword-merge loop of `_combine_results`. -/
def mergeStep (m : List (String × SearchResult)) (r : SearchResult) :
    List (String × SearchResult) :=
  match dictFind m r.id with
  | some cur => dictInsert m r.id (hybridBoost cur r)
  | none => dictInsert m r.id (lexEntry r)

/-- The seeding loop of `_combine_results` over the enumerated vector hits. -/
def seedPhase (embeddingResults : List SearchResult) : List (String × SearchResult) :=
  embeddingResults.enum.foldl (fun m p => dictInsert m p.2.id (seedEntry p.2 p.1)) []

/-- Model of `VectorDatabase._combine_results(embedding_results, keyword_results, top_k)`. -/
def combineResults (embeddingResults keywordResults : List SearchResult) (topK : Nat) :
    List SearchResult :=
  let combined := keywordResults.foldl mergeStep (seedPhase embeddingResults)
  (((combined.map (fun p => p.2)).mergeSort scoreDesc).take topK)

/-! ## Vector search adapter (`_build_route_filters`, `_route_aware_search`,
`_rerank_with_route_bonuses`, `search_with_route`) -/

/-- A ChromaDB `where` clause: equality conditions, possibly conjoined. -/
inductive WhereClause where
  | eqCond (field : String) (value : String)
  | conj (conds : List WhereClause)
deriving Repr

/-- The intent→category table of `_build_route_filters`
(`{"schedule": "schedule", "news": None, "events": "conferences",
"contacts": "contacts", "info": None}.get(intent)`). -/
def intentToCategory (intent : String) : Option String :=
  if intent = "schedule" then some "schedule"
  else if intent = "events" then some "conferences"
  else if intent = "contacts" then some "contacts"
  else none

/-- Model of `VectorDatabase._build_route_filters(route_decision)`. -/
def buildRouteFilters (route : RouteDecision) : WhereClause :=
  let conditions := [WhereClause.eqCond "source" "news"]
    ++ (if route.search_scope ≠ "global"
        then [WhereClause.eqCond "faculty" route.search_scope] else [])
    ++ (match route.target_entity with
        | some e => [WhereClause.eqCond "department" e]
        | none => [])
    ++ (match intentToCategory route.search_intent with
        | some c => [WhereClause.eqCond "category" c]
        | none => [])
  if 1 < conditions.length then WhereClause.conj conditions
  else conditions.headD (WhereClause.eqCond "source" "news")

/-- A row as returned by the nearest-neighbour store for one hit. -/
structure StoreRow where
  content : String
  metadata : Metadata
  distance : ℚ
  id : String
deriving Repr, DecidableEq

/-- Model of `VectorDatabase._route_aware_search(query, where_filter, max_results)`:
prefix the query with `"query: "`, encode, query the store, convert each
distance `d` to `relevance_score = max(0, 1 - d/4)`; any encoder or store
error is caught and yields the empty list. -/
def routeAwareSearch (encode : String → Except String (List ℚ))
    (storeQuery : List ℚ → WhereClause → Nat → Except String (List StoreRow))
    (query : String) (whereFilter : WhereClause) (maxResults : Nat) :
    List SearchResult :=
  match encode ("query: " ++ query) with
  | .error _ => []
  | .ok emb =>
    match storeQuery emb whereFilter maxResults with
    | .error _ => []
    | .ok rows => rows.map (fun row =>
        { content := row.content, metadata := row.metadata,
          distance := row.distance,
          relevance_score := max 0 (1 - row.distance / 4),
          id := row.id, search_type := "routed" })

/-- Model of `VectorDatabase._rerank_with_route_bonuses(results, route_decision)`:
outside global scope, +0.1 when the document's faculty equals the scope and
+0.1 when its department metadata equals the target entity (an absent
department and an absent target compare equal); then re-sort descending. -/
def applyRouteBonus (route : RouteDecision) (r : SearchResult) : SearchResult :=
  let bonus : ℚ :=
    if route.search_scope ≠ "global" then
      (if r.metadata.faculty = some route.search_scope then (0.1 : ℚ) else 0)
        + (if r.metadata.department = route.target_entity then (0.1 : ℚ) else 0)
    else 0
  { r with relevance_score := r.relevance_score + bonus }

def rerankWithRouteBonuses (results : List SearchResult) (route : RouteDecision) :
    List SearchResult :=
  (results.map (applyRouteBonus route)).mergeSort scoreDesc

/-- The query-enhancement step of `search_with_route`: append only those
route keywords whose lowercase form is not already a word of the query. -/
def enhancedQueryWithRoute (query : String) (route : RouteDecision) : String :=
  if route.enhancement_keywords ≠ [] then
    let queryWords := pySplitWs (pyLower query)
    let newKeywords := route.enhancement_keywords.filter
      (fun kw => ¬ queryWords.contains (pyLower kw))
    if newKeywords ≠ [] then query ++ " " ++ String.intercalate " " newKeywords
    else query
  else query

/-- Model of `VectorDatabase.search_with_route(query, route_decision, top_k)`:
build the route filter, enhance the query, run the route-aware vector
search asking for `top_k * 5` candidates, re-rank with route bonuses, and
return the first `top_k`. -/
def searchWithRoute (encode : String → Except String (List ℚ))
    (storeQuery : List ℚ → WhereClause → Nat → Except String (List StoreRow))
    (query : String) (route : RouteDecision) (topK : Nat) : List SearchResult :=
  let whereFilter := buildRouteFilters route
  let enhanced := enhancedQueryWithRoute query route
  let results := routeAwareSearch encode storeQuery enhanced whereFilter (topK * 5)
  let ranked := rerankWithRouteBonuses results route
  ranked.take topK

/-! ## Query router (`query_router.py`) -/

/-- One chat message, as the `{role, content}` dictionaries of the history. -/
structure Msg where
  role : String
  content : String
deriving Repr, DecidableEq

/-- An organizational entity as produced by `extract_entities_from_text`
(the `nau_structure` module, whose code is not part of the core sources):
a faculty or department match with its codes and matched alias. -/
structure OrgEntity where
  type : String
  code : String
  faculty_code : String
  matched_alias : String
  full_name : String
deriving Repr, DecidableEq

/-- The intent keyword table of `QueryRouter._detect_intent`, in the
insertion order of the Python dict. -/
def intentPatterns : List (String × List String) :=
  [("schedule", ["розклад", "пари", "заняття", "коли", "о котрій"]),
   ("news", ["новин", "подій", "останн", "що нового", "актуальн"]),
   ("contacts", ["контакт", "телефон", "адрес", "email", "де знаходиться"]),
   ("events", ["захід", "конференція", "семінар", "зустріч", "форум", "політ"]),
   ("info", ["інформац", "розкажи", "що", "як", "хто", "викладач"])]

/-- Model of `QueryRouter._detect_intent(query)`: the first intent of the table one
of whose patterns occurs in the (lowercased) query, defaulting to "info". -/
def detectIntent (query : String) : String :=
  match intentPatterns.find? (fun ip => ip.2.any (fun pat => strContains query pat)) with
  | some ip => ip.1
  | none => "info"

/-- Model of `QueryRouter.semantic_expansions`. -/
def semanticExpansions : List (String × List String) :=
  [("політ", ["конференція", "захід", "зустріч", "семінар", "форум", "збори"]),
   ("зустріч", ["засідання", "нарада", "конференція", "семінар"]),
   ("подія", ["захід", "конференція", "форум", "семінар", "святкування"]),
   ("викладач", ["професор", "доцент", "завідувач", "науковець", "педагог"]),
   ("завідувач", ["завкафедри", "керівник кафедри", "декан", "професор"]),
   ("навчання", ["освіта", "заняття", "пари", "лекції", "семінари", "курс"]),
   ("розклад", ["пари", "заняття", "графік", "час занять"]),
   ("дослідження", ["наука", "наукова робота", "публікації", "конференції"]),
   ("конференція", ["симпозіум", "форум", "наукова подія", "семінар"]),
   ("вступ", ["абітурієнт", "прийом", "документи", "конкурс", "зарахування"]),
   ("контакти", ["телефон", "адреса", "email", "зв\u0027язок", "розташування"])]

/-- The intent keyword table of `_generate_enhancement_keywords`. -/
def intentKeywordTable : List (String × List String) :=
  [("schedule", ["графік", "час", "аудиторія"]),
   ("news", ["подія", "оголошення", "інформація"]),
   ("contacts", ["зв\u0027язок", "телефон", "адреса"]),
   ("events", ["подія", "зустріч", "захід"]),
   ("info", ["інформація", "дані", "відомості"])]

/-- First-occurrence deduplication.  The source computes
`list(set(keywords))`, whose order CPython leaves unspecified; the claims
under verification do not depend on the order of the keyword list. -/
def dedupFirst (l : List String) : List String :=
  l.foldl (fun acc w => if acc.contains w then acc else acc ++ [w]) []

/-- Model of `QueryRouter._generate_enhancement_keywords(query, intent)`: up to
three synonyms per matched expansion key, plus the intent keywords,
deduplicated and capped at five. -/
def generateEnhancementKeywords (query : String) (intent : String) : List String :=
  let keywords := semanticExpansions.foldl
    (fun acc p => if strContains query p.1 then acc ++ p.2.take 3 else acc) []
  let keywords := keywords ++ ((intentKeywordTable.find? (fun p => p.1 = intent)).map
    (fun p => p.2)).getD []
  (dedupFirst keywords).take 5

/-- Model of `QueryRouter._build_reasoning`. -/
def buildReasoning (entities : List OrgEntity) (context_scope context_entity : Option String)
    (search_scope _search_level : String) (_target_entity : Option String) : String :=
  match entities with
  | entity :: _ => "Знайдено: " ++ entity.matched_alias ++ " → " ++ entity.full_name
  | [] =>
    match context_entity with
    | some ce => "Контекст з історії: " ++ ce
    | none =>
      match context_scope with
      | some cs => "Контекст з історії: факультет " ++ cs
      | none =>
        if search_scope ≠ "global" then "Визначено факультет: " ++ search_scope
        else "Загальний запит про НАУ"

def greetingWordsHeuristic : List String :=
  ["привіт", "привет", "дякую", "спасибо", "пока", "бувай", "hi", "hello", "bye"]

def questionWordsHeuristic : List String :=
  ["що", "як", "коли", "де", "хто", "чому", "який", "яка", "яке", "чи"]

/-- The history-context extraction of `_heuristic_routing`: the last ≤6
messages are concatenated, entities extracted, and the *last* entity found
provides the context scope (and entity, for a department). -/
def historyContext (extractEntities : String → List OrgEntity)
    (history : Option (List Msg)) : Option String × Option String :=
  match history with
  | none => (none, none)
  | some h =>
    if h = [] then (none, none)
    else
      let recent := if 6 < h.length then h.drop (h.length - 6) else h
      let historyText := String.intercalate " " (recent.map (fun m => m.content))
      match (extractEntities historyText).getLast? with
      | none => (none, none)
      | some lastEntity =>
        if lastEntity.type = "faculty" then (some lastEntity.code, none)
        else if lastEntity.type = "department" then
          (some lastEntity.faculty_code, some lastEntity.code)
        else (none, none)

/-- The group-code patterns of the group branch of `_heuristic_routing`. -/
def technicalGroupPatterns : List String := ["ІР", "КІТ", "КІ", "ПМ", "КБ"]

/-- Model of `QueryRouter._heuristic_routing(query, history, group_name)`.
The entity extractor (from the `nau_structure` module, outside the core
sources) is a parameter.  Note that the internally computed confidence
(0.95 / 0.98 / 0.75 / 0.70 / 0.60) is bound but *discarded*: the source
returns the literal `confidence=0.5` in its `RouteDecision` constructor. -/
def heuristicRouting (extractEntities : String → List OrgEntity)
    (query : String) (history : Option (List Msg)) (groupName : Option String) :
    RouteDecision :=
  let query_lower := pyLower query
  let entities := extractEntities query
  let ctx := historyContext extractEntities history
  let context_scope := ctx.1
  let context_entity := ctx.2
  let state : String × String × Option String × ℚ :=
    match entities with
    | entity :: _ =>
      if entity.type = "faculty" then (entity.code, "faculty", none, 0.95)
      else if entity.type = "department" then
        (entity.faculty_code, "department", some entity.code, 0.98)
      else ("global", "general", none, 0.5)
    | [] =>
      match context_scope with
      | some cs =>
        (match context_entity with
         | some ce => (cs, "department", some ce, 0.75)
         | none => (cs, "faculty", none, 0.70))
      | none =>
        match groupName with
        | some g =>
          if g ≠ "" ∧ technicalGroupPatterns.any (fun x => strContains (pyUpper g) x)
          then ("ФКНТ", "faculty", none, 0.60)
          else ("global", "general", none, 0.5)
        | none => ("global", "general", none, 0.5)
  let search_scope := state.1
  let search_level := state.2.1
  let target_entity := state.2.2.1
  let _discarded_confidence := state.2.2.2
  let search_intent := detectIntent query_lower
  let enhancement_keywords := generateEnhancementKeywords query_lower search_intent
  let reasoning := buildReasoning entities context_scope context_entity
    search_scope search_level target_entity
  let is_greeting := greetingWordsHeuristic.any (fun w => strContains query_lower w)
  let has_question := questionWordsHeuristic.any (fun w => strContains query_lower w)
  let needs_search := (¬ ((pySplitWs query).length ≤ 3 ∧ is_greeting)) ∨ has_question
  { search_scope := search_scope,
    search_level := search_level,
    target_entity := target_entity,
    search_intent := search_intent,
    enhancement_keywords := enhancement_keywords,
    confidence := 0.5,
    reasoning := reasoning,
    needs_database_search := needs_search }

/-- One outcome of a reasoning-service consultation during routing: a
successfully parsed decision, unparseable output, or a raised error. -/
inductive RouteLlmResult where
  | parsed (d : RouteDecision)
  | malformed
  | exn (msg : String)

/-- The retry loop of `QueryRouter._llm_routing` over its attempt numbers:
a parsed response returns immediately; malformed output, HTTP failures and
exceptions retry, and exhaustion returns `None`. -/
def llmRoutingFrom (llm : Nat → RouteLlmResult) : List Nat → Option RouteDecision
  | [] => none
  | a :: rest =>
    match llm a with
    | .parsed d => some d
    | .malformed => llmRoutingFrom llm rest
    | .exn _ => llmRoutingFrom llm rest

/-- Model of `QueryRouter._llm_routing` with its default `max_retries = 3`. -/
def llmRouting (llm : Nat → RouteLlmResult) : Option RouteDecision :=
  llmRoutingFrom llm (List.range' 1 3)

/-- Model of `QueryRouter.route_query`: model-driven routing first, deterministic
heuristic fallback when it yields nothing. -/
def routeQuery (llm : Nat → RouteLlmResult) (extractEntities : String → List OrgEntity)
    (query : String) (history : Option (List Msg)) (groupName : Option String) :
    RouteDecision :=
  match llmRouting llm with
  | some d => d
  | none => heuristicRouting extractEntities query history groupName

/-! ## Result validator (`result_validator.py`) -/

/-- One outcome of a reasoning-service consultation during validation. -/
inductive LlmResult where
  | parsed (d : ValidationDecision)
  | malformed
  | exn (msg : String)

/-- The permissive fallback of `_llm_validation` when every retry produced
malformed JSON: relevant iff any results exist, select up to the first
three, confidence 0.3, no reformulation. -/
def permissiveFallback (numResults : Nat) : ValidationDecision :=
  { is_relevant := decide (0 < numResults),
    selected_indices :=
      if 3 ≤ numResults then [1, 2, 3]
      else (List.range' 1 numResults).map (fun i => (i : Int)),
    confidence := 0.3,
    reasoning := "Fallback: LLM не зміг розпарсити JSON після всіх спроб",
    needs_reformulation := false,
    reformulated_query := none,
    reformulation_strategy := none }

/-- The fallback of `_llm_validation` when the final retry raised. -/
def exceptionFallback (msg : String) : ValidationDecision :=
  { is_relevant := false, selected_indices := [], confidence := 0,
    reasoning := "Exception: " ++ msg, needs_reformulation := false,
    reformulated_query := none, reformulation_strategy := none }

/-- The (unreachable) decision after the retry loop of `_llm_validation`. -/
def unknownErrorDecision : ValidationDecision :=
  { is_relevant := false, selected_indices := [], confidence := 0,
    reasoning := "Unknown error in retry loop", needs_reformulation := false,
    reformulated_query := none, reformulation_strategy := none }

/-- The retry loop of `ResultValidator._llm_validation` over its retry
attempt numbers. -/
def llmValidationFrom (llm : Nat → LlmResult) (numResults : Nat) :
    List Nat → ValidationDecision
  | [] => unknownErrorDecision
  | a :: rest =>
    match llm a with
    | .parsed d => d
    | .malformed =>
      match rest with
      | [] => permissiveFallback numResults
      | _ :: _ => llmValidationFrom llm numResults rest
    | .exn e =>
      match rest with
      | [] => exceptionFallback e
      | _ :: _ => llmValidationFrom llm numResults rest

/-- Model of `ResultValidator._llm_validation` with its default `max_retries = 3`.
The condensed result summaries only feed the prompt; the control flow
depends on their number, which equals the number of search results. -/
def llmValidation (llm : Nat → LlmResult) (numResults : Nat) : ValidationDecision :=
  llmValidationFrom llm numResults (List.range' 1 3)

/-- Model of `ResultValidator.max_retries`, the attribute consulted by
`validate_and_select` (distinct from `_llm_validation`'s retry budget). -/
def validatorMaxRetries : Nat := 2

/-- Python truthiness of an optional string (`None` and `""` are falsy). -/
def optTruthy (o : Option String) : Bool := o.getD "" ≠ ""

/-- Model of `ResultValidator.validate_and_select`: consult the reasoning service;
when reformulation is requested early, return no hits; when relevant with
selections, map the 1-based indices into the result list, discarding
out-of-range ones; otherwise return the (possibly empty) selection. -/
def validateAndSelect (llm : Nat → LlmResult) (_originalQuery : String)
    (searchResults : List SearchResult) (_routeReasoning : String) (attempt : Nat) :
    ValidationDecision × List SearchResult :=
  let decision := llmValidation llm searchResults.length
  if decision.needs_reformulation ∧ attempt < validatorMaxRetries then (decision, [])
  else if decision.is_relevant ∧ decision.selected_indices ≠ [] then
    (decision, decision.selected_indices.filterMap (fun i =>
      if 1 ≤ i ∧ i ≤ (searchResults.length : Int)
      then searchResults[(i - 1).toNat]? else none))
  else (decision, [])

/-! ## Retrieval orchestrator (`NAUAssistant._search_with_validation`) -/

/-- Model of `MAX_ATTEMPTS` of `_search_with_validation`. -/
def MAX_ATTEMPTS : Nat := 3

/-- The zero-hit query simplification:
`current_query.split()[0] if len(current_query.split()) > 1 else current_query`. -/
def firstTokenOrSame (q : String) : String :=
  match pySplitWs q with
  | w :: _ :: _ => w
  | _ => q

/-- An instrumented run of the retrieval loop: which `(attempt, query)`
pairs were searched, at which attempt numbers the validator was consulted,
and the final evidence list. -/
structure SearchTrace where
  searchAttempts : List (Nat × String)
  validationAttempts : List Nat
  result : List SearchResult
deriving Repr, DecidableEq

/-- The `for attempt in range(1, MAX_ATTEMPTS + 1)` loop of
`_search_with_validation`, over the remaining attempt numbers.  `db` models
`self.db.search_with_route` and `val` the validator's reasoning service,
both indexed by attempt so that arbitrary temporal behaviour is covered. -/
def searchLoop (db : Nat → String → List SearchResult) (val : Nat → Nat → LlmResult)
    (message : String) (route : RouteDecision) (maxAttempts : Nat) :
    List Nat → String → SearchTrace
  | [], _ => { searchAttempts := [], validationAttempts := [], result := [] }
  | attempt :: rest, q =>
    let raw := db attempt q
    if raw = [] then
      if attempt = maxAttempts then
        { searchAttempts := [(attempt, q)], validationAttempts := [], result := [] }
      else
        let t := searchLoop db val message route maxAttempts rest (firstTokenOrSame q)
        { t with searchAttempts := (attempt, q) :: t.searchAttempts }
    else
      let vr := validateAndSelect (val attempt) message raw route.reasoning attempt
      if vr.1.is_relevant ∧ vr.2 ≠ [] then
        { searchAttempts := [(attempt, q)], validationAttempts := [attempt],
          result := vr.2 }
      else if vr.1.needs_reformulation ∧ optTruthy vr.1.reformulated_query then
        let newQ := vr.1.reformulated_query.getD q
        if attempt = maxAttempts then
          { searchAttempts := [(attempt, q)], validationAttempts := [attempt],
            result := [] }
        else
          let t := searchLoop db val message route maxAttempts rest newQ
          { searchAttempts := (attempt, q) :: t.searchAttempts,
            validationAttempts := attempt :: t.validationAttempts,
            result := t.result }
      else
        { searchAttempts := [(attempt, q)], validationAttempts := [attempt],
          result := vr.2 }

/-- Model of `NAUAssistant._search_with_validation(message, route_decision)`: the
initial query is the space-joined enhancement keywords when present, else
the raw message; then the bounded attempt loop. -/
def searchWithValidation (db : Nat → String → List SearchResult)
    (val : Nat → Nat → LlmResult) (message : String) (route : RouteDecision) :
    SearchTrace :=
  let currentQuery :=
    if route.enhancement_keywords ≠ [] then
      String.intercalate " " route.enhancement_keywords
    else message
  searchLoop db val message route MAX_ATTEMPTS (List.range' 1 MAX_ATTEMPTS) currentQuery

/-! ## Claim C1 — heuristic routing confidence -/

/-- Modelled from the spec: `extract_entities_from_text` of the
`nau_structure` module (not among the core sources) matches faculty and
department names or aliases of the organizational hierarchy (faculties
ФКНТ/ФАЕТ with departments such as ІПЗ) in the text.  A small concrete
instance sufficient for the scenarios under test. -/
def specExtractEntities (text : String) : List OrgEntity :=
  let t := pyLower text
  (if strContains t "фкнт" then
    [{ type := "faculty", code := "ФКНТ", faculty_code := "ФКНТ",
       matched_alias := "ФКНТ",
       full_name := "Факультет компютерних наук та технологій" }] else [])
  ++ (if strContains t "іпз" then
    [{ type := "department", code := "ІПЗ", faculty_code := "ФКНТ",
       matched_alias := "ІПЗ",
       full_name := "Кафедра інженерії програмного забезпечення" }] else [])

/-- C1 (counterexample): on the question "Розкажи про ФКНТ" the entity
extractor finds a faculty, so the claim demands confidence 0.95 — strictly
above 0.5 — yet the heuristic path returns exactly 0.5, because the
computed confidence is discarded and the literal 0.5 is returned. -/
theorem C1_counterexample :
    specExtractEntities "Розкажи про ФКНТ" ≠ [] ∧
    (specExtractEntities "Розкажи про ФКНТ").head?.map OrgEntity.type = some "faculty" ∧
    (heuristicRouting specExtractEntities "Розкажи про ФКНТ" none none).confidence = 0.5 ∧
    ¬ (0.5 : ℚ) > 0.5 := by
  refine ⟨by decide, by decide, rfl, by norm_num⟩

/-- C1 (amended): every `RouteDecision` produced by the heuristic routing
path has confidence exactly 0.5, whether or not an entity, history-context
or group signal was found — the internally computed 0.95/0.98/0.75/0.70/
0.60 values are discarded by the `RouteDecision` constructor call. -/
theorem C1_heuristic_confidence (extractEntities : String → List OrgEntity)
    (query : String) (history : Option (List Msg)) (groupName : Option String) :
    (heuristicRouting extractEntities query history groupName).confidence = 0.5 := rfl

/-! ## Claim C7 — lexical scorer formula -/

/-- The per-document lexical score exactly as claim C7 words it: the fuzzy
bonuses are awarded for *any* keyword, with no length threshold. -/
def claimKeywordScore (content : String) (keywords : List String) (metadata : Metadata) : ℚ :=
  let content_lower := pyLower content
  let title := pyLower (metadata.title.getD "")
  (keywords.map (fun keyword =>
    (if strContains title keyword then (30 : ℚ) else 0)
    + (pyCount content_lower keyword : ℚ) * 3
    + (if fuzzyHit (pySplitWs title) keyword then 8 else 0)
    + (if fuzzyHit (pySplitWs content_lower) keyword then 4 else 0))).sum

theorem fuzzSimilarity_cat_cat : fuzzSimilarity "cat" "cat" = 100 := by
  have h1 : lcsLen "cat".data "cat".data = 3 := by decide
  have h2 : "cat".data.length = 3 := by decide
  simp only [fuzzSimilarity, h1, h2]
  norm_num

/-- C7 (counterexample): for the single keyword "cat" against a document
with title "cat" and empty body, the claim's formula gives 30 + 8 = 38
(the title word "cat" has fuzzy similarity 100 > 85), but the source gates
both fuzzy bonuses behind `len(keyword) > 3` and scores 30. -/
theorem C7_counterexample :
    calculateKeywordScore "" ["cat"] { title := some "cat" } = 30 ∧
    claimKeywordScore "" ["cat"] { title := some "cat" } = 38 := by
  have hl : pyLower "cat" = "cat" := by decide
  have hl0 : pyLower "" = "" := by decide
  have hc : strContains "cat" "cat" = true := by decide
  have hcount : pyCount "" "cat" = 0 := by decide
  have hsplitT : pySplitWs "cat" = ["cat"] := by decide
  have hsplit0 : pySplitWs "" = [] := by decide
  have hlen : ¬ 3 < "cat".length := by decide
  have hfzT : fuzzyHit ["cat"] "cat" = true := by
    simp only [fuzzyHit, List.any_cons, List.any_nil, fuzzSimilarity_cat_cat]
    norm_num
  have hfz0 : fuzzyHit [] "cat" = false := by simp [fuzzyHit]
  constructor
  · simp only [calculateKeywordScore, Option.getD_some, hl, hl0, List.foldl_cons,
      List.foldl_nil, keywordStep, hc, hcount, if_true, hlen, if_false]
    norm_num
  · simp only [claimKeywordScore, Option.getD_some, hl, hl0, List.map_cons,
      List.map_nil, List.sum_cons, List.sum_nil, hc, hcount, hsplitT, hsplit0,
      hfzT, hfz0]
    norm_num

/-- The per-keyword contribution of `_calculate_keyword_score`, with the
`len(keyword) > 3` gate on both fuzzy bonuses made explicit. -/
def keywordContribution (content_lower title : String) (keyword : String) : ℚ :=
  (if strContains title keyword then (30 : ℚ) else 0)
  + (pyCount content_lower keyword : ℚ) * 3
  + (if 3 < keyword.length ∧ fuzzyHit (pySplitWs title) keyword then 8 else 0)
  + (if 3 < keyword.length ∧ fuzzyHit (pySplitWs content_lower) keyword then 4 else 0)

theorem keywordStep_eq (cl t : String) (s : ℚ) (kw : String) :
    keywordStep cl t s kw = s + keywordContribution cl t kw := by
  by_cases h1 : strContains t kw = true <;>
  by_cases h2 : 3 < kw.length <;>
  by_cases h3 : fuzzyHit (pySplitWs t) kw = true <;>
  by_cases h4 : fuzzyHit (pySplitWs cl) kw = true <;>
  simp only [keywordStep, keywordContribution, h1, h2, h3, h4, if_true, if_false,
    Bool.false_eq_true, eq_self_iff_true, true_and, and_true, false_and, and_false,
    ite_true, ite_false] <;>
  ring

theorem foldl_keywordStep (cl t : String) (l : List String) :
    ∀ a : ℚ, l.foldl (keywordStep cl t) a = a + (l.map (keywordContribution cl t)).sum := by
  induction l with
  | nil => simp
  | cons kw l ih =>
    intro a
    simp only [List.foldl_cons, keywordStep_eq, ih, List.map_cons, List.sum_cons]
    ring

/-- C7 (amended): the lexical score of a document against a keyword list is
the sum over all keywords of: +30 for a title substring hit, +3 per raw
substring occurrence in the body, and — only for keywords longer than 3
characters — +8 when some title word has fuzzy similarity above 85 and +4
(at most once per keyword) when some body word has fuzzy similarity above
85. -/
theorem C7_keyword_score (content : String) (keywords : List String) (metadata : Metadata) :
    calculateKeywordScore content keywords metadata =
      (keywords.map
        (keywordContribution (pyLower content) (pyLower (metadata.title.getD "")))).sum := by
  simp [calculateKeywordScore, foldl_keywordStep]

/-! ## Shared sorting lemmas -/

theorem scoreDesc_trans : ∀ a b c : SearchResult,
    scoreDesc a b = true → scoreDesc b c = true → scoreDesc a c = true := by
  intro a b c h1 h2
  simp only [scoreDesc, decide_eq_true_eq] at *
  exact le_trans h2 h1

theorem scoreDesc_total : ∀ a b : SearchResult,
    (scoreDesc a b || scoreDesc b a) = true := by
  intro a b
  simp only [scoreDesc, Bool.or_eq_true, decide_eq_true_eq]
  exact le_total _ _

theorem mergeSort_scores_sorted (l : List SearchResult) :
    ((l.mergeSort scoreDesc).map (fun r => r.relevance_score)).Sorted (· ≥ ·) := by
  have h := @List.sorted_mergeSort SearchResult scoreDesc scoreDesc_trans scoreDesc_total l
  rw [List.Sorted, List.pairwise_map]
  exact h.imp (by
    intro a b hab
    simpa [scoreDesc] using hab)

theorem mem_mergeSort_scoreDesc {r : SearchResult} {l : List SearchResult} :
    r ∈ l.mergeSort scoreDesc ↔ r ∈ l :=
  (List.mergeSort_perm l scoreDesc).mem_iff

/-! ## Claim C9 — vector search adapter error containment and scoring -/

/-- C9: the route-aware vector search never propagates an error: an encoder
error or a store error each yield the empty result list, and on success
every returned hit carries `relevance_score = max(0, 1 - distance/4)`. -/
theorem C9_route_search (encode : String → Except String (List ℚ))
    (storeQuery : List ℚ → WhereClause → Nat → Except String (List StoreRow))
    (query : String) (whereFilter : WhereClause) (maxResults : Nat) :
    (∀ r ∈ routeAwareSearch encode storeQuery query whereFilter maxResults,
        r.relevance_score = max 0 (1 - r.distance / 4) ∧ r.search_type = "routed")
    ∧ (∀ e, encode ("query: " ++ query) = .error e →
        routeAwareSearch encode storeQuery query whereFilter maxResults = [])
    ∧ (∀ emb e, encode ("query: " ++ query) = .ok emb →
        storeQuery emb whereFilter maxResults = .error e →
        routeAwareSearch encode storeQuery query whereFilter maxResults = []) := by
  refine ⟨?_, ?_, ?_⟩
  · intro r hr
    unfold routeAwareSearch at hr
    split at hr
    · simp at hr
    · split at hr
      · simp at hr
      · obtain ⟨row, _, rfl⟩ := List.mem_map.1 hr
        exact ⟨rfl, rfl⟩
  · intro e he
    simp [routeAwareSearch, he]
  · intro emb e he hst
    simp [routeAwareSearch, he, hst]

/-- C9 (witness): with the encoder down, the search returns the empty list. -/
theorem C9_witness :
    routeAwareSearch (fun _ => .error "encoder down") (fun _ _ _ => .ok [])
      "бюджет" (WhereClause.eqCond "source" "news") 75 = [] :=
  (C9_route_search (fun _ => .error "encoder down") (fun _ _ _ => .ok [])
    "бюджет" (WhereClause.eqCond "source" "news") 75).2.1 "encoder down" rfl

/-! ## Claim C10 — department-affinity bonus for documents without
department metadata -/

/-- C10: with a non-global scope and no target entity, every document
without department metadata receives the +0.1 department-affinity bonus
(`None == None` in the source comparison), and therefore ends up strictly
above an equally-scored, equally-faculty-labelled document that does carry
a department label; the re-ranked list is sorted descending by the boosted
scores. -/
theorem C10_absent_department_bonus (results : List SearchResult) (route : RouteDecision)
    (hscope : route.search_scope ≠ "global") (htarget : route.target_entity = none) :
    (∀ r : SearchResult, r.metadata.department = none →
      (applyRouteBonus route r).relevance_score =
        r.relevance_score
          + ((if r.metadata.faculty = some route.search_scope then (0.1 : ℚ) else 0)
             + 0.1))
    ∧ (∀ r₁ r₂ : SearchResult, r₁.relevance_score = r₂.relevance_score →
        r₁.metadata.faculty = r₂.metadata.faculty →
        r₁.metadata.department = none → r₂.metadata.department ≠ none →
        (applyRouteBonus route r₂).relevance_score
          < (applyRouteBonus route r₁).relevance_score)
    ∧ ((rerankWithRouteBonuses results route).map
        (fun r => r.relevance_score)).Sorted (· ≥ ·) := by
  refine ⟨?_, ?_, ?_⟩
  · intro r hdept
    simp [applyRouteBonus, hscope, htarget, hdept]
  · intro r₁ r₂ hsc hfac hd₁ hd₂
    have h2 : r₂.metadata.department = none ↔ False := by simp [hd₂]
    simp only [applyRouteBonus, hscope, htarget, hd₁, hfac, hsc, if_true, if_false,
      ite_true, ite_false, h2, if_neg, not_false_iff, ne_eq, not_true_eq_false]
    split_ifs <;> norm_num
  · exact mergeSort_scores_sorted _

def routeC10 : RouteDecision :=
  { search_scope := "ФКНТ", search_level := "faculty", target_entity := none,
    search_intent := "info", enhancement_keywords := [], confidence := 0.5,
    reasoning := "", needs_database_search := true }

def hitNoDept : SearchResult :=
  { content := "a", metadata := { faculty := some "ФКНТ" }, distance := 1,
    relevance_score := 1, id := "a", search_type := "routed" }

def hitWithDept : SearchResult :=
  { content := "b", metadata := { faculty := some "ФКНТ", department := some "ІПЗ" },
    distance := 1, relevance_score := 1, id := "b", search_type := "routed" }

/-- C10 (witness): a document without department metadata is boosted
strictly above an equally-scored one with a department label. -/
theorem C10_witness :
    (applyRouteBonus routeC10 hitWithDept).relevance_score
      < (applyRouteBonus routeC10 hitNoDept).relevance_score :=
  (C10_absent_department_bonus [hitNoDept, hitWithDept] routeC10 (by decide) rfl).2.1
    hitNoDept hitWithDept rfl rfl rfl (by decide)

/-! ## Claim C3 — what the retrieval loop's SEARCH step actually invokes -/

theorem routeAwareSearch_types (encode : String → Except String (List ℚ))
    (storeQuery : List ℚ → WhereClause → Nat → Except String (List StoreRow))
    (query : String) (whereFilter : WhereClause) (maxResults : Nat) :
    ∀ r ∈ routeAwareSearch encode storeQuery query whereFilter maxResults,
      r.search_type = "routed" := by
  intro r hr
  unfold routeAwareSearch at hr
  split at hr
  · simp at hr
  · split at hr
    · simp at hr
    · obtain ⟨row, _, rfl⟩ := List.mem_map.1 hr
      rfl

/-- C3 (amended): the retrieval loop's SEARCH step (`search_with_route`)
invokes only the route-filtered vector search followed by route-bonus
re-ranking and truncation; the lexical scorer and the result fuser are not
on this path, so every candidate handed to validation has origin
`"routed"`. -/
theorem C3_search_step_vector_only (encode : String → Except String (List ℚ))
    (storeQuery : List ℚ → WhereClause → Nat → Except String (List StoreRow))
    (query : String) (route : RouteDecision) (topK : Nat) :
    searchWithRoute encode storeQuery query route topK =
      (rerankWithRouteBonuses
        (routeAwareSearch encode storeQuery (enhancedQueryWithRoute query route)
          (buildRouteFilters route) (topK * 5)) route).take topK
    ∧ ∀ r ∈ searchWithRoute encode storeQuery query route topK,
        r.search_type = "routed" := by
  refine ⟨rfl, ?_⟩
  intro r hr
  have hr' : r ∈ rerankWithRouteBonuses
      (routeAwareSearch encode storeQuery (enhancedQueryWithRoute query route)
        (buildRouteFilters route) (topK * 5)) route :=
    (List.take_sublist _ _).mem hr
  unfold rerankWithRouteBonuses at hr'
  rw [mem_mergeSort_scoreDesc] at hr'
  obtain ⟨r', hr'', rfl⟩ := List.mem_map.1 hr'
  have := routeAwareSearch_types encode storeQuery
    (enhancedQueryWithRoute query route) (buildRouteFilters route) (topK * 5) r' hr''
  simpa [applyRouteBonus] using this

def rowC3 : StoreRow :=
  { content := "doc", metadata := {}, distance := 1, id := "d9" }

/-- A route as the heuristic produces for a global question. -/
def routeC3 : RouteDecision :=
  { search_scope := "global", search_level := "general", target_entity := none,
    search_intent := "info", enhancement_keywords := [], confidence := 0.5,
    reasoning := "", needs_database_search := true }

/-- C3 (witness): on a store returning one row, the single candidate the
SEARCH step produces has origin `"routed"`. -/
theorem C3_witness :
    (applyRouteBonus routeC3
      { content := "doc", metadata := {}, distance := 1,
        relevance_score := max 0 (1 - 1 / 4), id := "d9",
        search_type := "routed" }).search_type = "routed" := by
  have hra : routeAwareSearch (fun _ => .ok [(0 : ℚ)]) (fun _ _ _ => .ok [rowC3])
      (enhancedQueryWithRoute "q" routeC3) (buildRouteFilters routeC3) (15 * 5)
      = [{ content := "doc", metadata := {}, distance := 1,
           relevance_score := max 0 (1 - 1 / 4), id := "d9",
           search_type := "routed" }] := rfl
  have hsw : searchWithRoute (fun _ => .ok [(0 : ℚ)]) (fun _ _ _ => .ok [rowC3])
      "q" routeC3 15
      = [applyRouteBonus routeC3
          { content := "doc", metadata := {}, distance := 1,
            relevance_score := max 0 (1 - 1 / 4), id := "d9",
            search_type := "routed" }] := by
    simp only [searchWithRoute, hra, rerankWithRouteBonuses, List.map_cons,
      List.map_nil, List.mergeSort_singleton, List.take_cons, List.take_nil]
    rfl
  exact (C3_search_step_vector_only (fun _ => .ok [(0 : ℚ)])
    (fun _ _ _ => .ok [rowC3]) "q" routeC3 15).2 _ (by rw [hsw]; exact List.mem_singleton_self _)

/-- A stored news document whose title matches the query lexically. -/
def docKit : StoredDoc :=
  { id := "d1", content := "", metadata := { title := some "кіт", source := some "news" } }

/-- C3 (counterexample): on the query "кіт" the vector store returns zero
hits, so `search_with_route` — the only search the retrieval loop performs —
returns nothing, although the lexical scorer gives the stored document a
strictly positive score (60) and the keyword search would return it: no
lexical or hybrid candidate can ever reach validation. -/
theorem C3_counterexample :
    searchWithRoute (fun _ => .ok [0]) (fun _ _ _ => .ok []) "кіт" routeC3 15 = [] ∧
    0 < calculateKeywordScore docKit.content (extractKeywords "кіт") docKit.metadata ∧
    keywordSearch [docKit] "кіт" 75 none ≠ [] := by
  have hkw : extractKeywords "кіт" = ["кіт", "кіт"] := by decide
  have hlow : pyLower "кіт" = "кіт" := by decide
  have hlow0 : pyLower "" = "" := by decide
  have hc : strContains "кіт" "кіт" = true := by decide
  have hcount : pyCount "" "кіт" = 0 := by decide
  have hlen : ¬ 3 < "кіт".length := by decide
  have hscore : calculateKeywordScore "" ["кіт", "кіт"]
      { title := some "кіт", source := some "news" } = 60 := by
    simp only [calculateKeywordScore, Option.getD_some, hlow, hlow0,
      List.foldl_cons, List.foldl_nil, keywordStep, hc, hcount, if_true, hlen,
      if_false]
    norm_num
  have hpos : (0 : ℚ) < 60 := by norm_num
  refine ⟨?_, ?_, ?_⟩
  · simp [searchWithRoute, enhancedQueryWithRoute, routeC3, routeAwareSearch,
      rerankWithRouteBonuses, List.mergeSort_nil]
  · show 0 < calculateKeywordScore "" (extractKeywords "кіт")
      { title := some "кіт", source := some "news" }
    rw [hkw, hscore]
    exact hpos
  · show keywordSearch [docKit] "кіт" 75 none ≠ []
    simp only [keywordSearch, hkw, docKit, List.filter_cons, List.filter_nil,
      List.filterMap_cons, List.filterMap_nil, hscore]
    simp [hscore, hpos, List.mergeSort_singleton]

/-! ## Claim C8 — permissive fallback on persistently malformed output -/

/-- C8: when the reasoning service produces malformed JSON on all three
retries, `_llm_validation` returns the permissive default: relevant exactly
when hits exist, the first `min 3 n` 1-based positions selected, confidence
0.3, and no reformulation. -/
theorem C8_malformed_fallback (llm : Nat → LlmResult) (n : Nat)
    (h : ∀ a ∈ List.range' 1 3, llm a = .malformed) :
    llmValidation llm n = permissiveFallback n
    ∧ (llmValidation llm n).is_relevant = decide (0 < n)
    ∧ (llmValidation llm n).selected_indices
        = (List.range' 1 (min 3 n)).map (fun i => (i : Int))
    ∧ (llmValidation llm n).confidence = 0.3
    ∧ (llmValidation llm n).needs_reformulation = false
    ∧ (llmValidation llm n).reformulated_query = none := by
  have h1 : llm 1 = .malformed := h 1 (by decide)
  have h2 : llm 2 = .malformed := h 2 (by decide)
  have h3 : llm 3 = .malformed := h 3 (by decide)
  have hrange : List.range' 1 3 = [1, 2, 3] := rfl
  have heq : llmValidation llm n = permissiveFallback n := by
    rw [llmValidation, hrange]
    simp [llmValidationFrom, h1, h2, h3]
  refine ⟨heq, ?_, ?_, ?_, ?_, ?_⟩
  · rw [heq]; rfl
  · rw [heq]
    rcases le_or_lt 3 n with h3n | h3n
    · have hmin : min 3 n = 3 := by omega
      simp [permissiveFallback, h3n, hmin]
      decide
    · have hmin : min 3 n = n := by omega
      have hn3 : ¬ 3 ≤ n := by omega
      simp [permissiveFallback, hn3, hmin]
  · rw [heq]; rfl
  · rw [heq]; rfl
  · rw [heq]; rfl

/-- C8 (witness): with two hits and an always-malformed reasoning service,
the validator marks the set relevant and selects positions 1 and 2. -/
theorem C8_witness :
    (llmValidation (fun _ => LlmResult.malformed) 2).is_relevant = true
    ∧ (llmValidation (fun _ => LlmResult.malformed) 2).selected_indices = [1, 2] := by
  have h := C8_malformed_fallback (fun _ => LlmResult.malformed) 2 (fun a _ => rfl)
  refine ⟨?_, ?_⟩
  · rw [h.2.1]; decide
  · rw [h.2.2.1]
    decide

/-! ## Claim C4 — at most three validation passes -/

theorem searchLoop_validations_le (db : Nat → String → List SearchResult)
    (val : Nat → Nat → LlmResult) (message : String) (route : RouteDecision)
    (M : Nat) :
    ∀ (l : List Nat) (q : String),
      (searchLoop db val message route M l q).validationAttempts.length ≤ l.length := by
  intro l
  induction l with
  | nil => intro q; simp [searchLoop]
  | cons a rest ih =>
    intro q
    by_cases hraw : db a q = []
    · by_cases hM : a = M
      · subst hM; simp [searchLoop, hraw]
      · simp only [searchLoop, hraw, if_true, hM, if_false, ite_true, ite_false,
          List.length_cons]
        exact le_trans (ih _) (Nat.le_succ _)
    · by_cases h1 : (validateAndSelect (val a) message (db a q) route.reasoning a).1.is_relevant
          = true ∧ (validateAndSelect (val a) message (db a q) route.reasoning a).2 ≠ []
      · simp [searchLoop, hraw, h1]
      · by_cases h2 : (validateAndSelect (val a) message (db a q) route.reasoning a).1.needs_reformulation
            = true ∧ optTruthy (validateAndSelect (val a) message (db a q) route.reasoning a).1.reformulated_query
            = true
        · by_cases hM : a = M
          · subst hM; simp [searchLoop, hraw, h1, h2]
          · simp only [searchLoop, hraw, h1, h2, hM, if_true, if_false, ite_true,
              ite_false, List.length_cons]
            exact Nat.succ_le_succ (ih _)
        · simp [searchLoop, hraw, h1, h2]

theorem searchLoop_searches_le (db : Nat → String → List SearchResult)
    (val : Nat → Nat → LlmResult) (message : String) (route : RouteDecision)
    (M : Nat) :
    ∀ (l : List Nat) (q : String),
      (searchLoop db val message route M l q).searchAttempts.length ≤ l.length := by
  intro l
  induction l with
  | nil => intro q; simp [searchLoop]
  | cons a rest ih =>
    intro q
    by_cases hraw : db a q = []
    · by_cases hM : a = M
      · subst hM; simp [searchLoop, hraw]
      · simp only [searchLoop, hraw, if_true, hM, if_false, ite_true, ite_false,
          List.length_cons]
        exact Nat.succ_le_succ (ih _)
    · by_cases h1 : (validateAndSelect (val a) message (db a q) route.reasoning a).1.is_relevant
          = true ∧ (validateAndSelect (val a) message (db a q) route.reasoning a).2 ≠ []
      · simp [searchLoop, hraw, h1]
      · by_cases h2 : (validateAndSelect (val a) message (db a q) route.reasoning a).1.needs_reformulation
            = true ∧ optTruthy (validateAndSelect (val a) message (db a q) route.reasoning a).1.reformulated_query
            = true
        · by_cases hM : a = M
          · subst hM; simp [searchLoop, hraw, h1, h2]
          · simp only [searchLoop, hraw, h1, h2, hM, if_true, if_false, ite_true,
              ite_false, List.length_cons]
            exact Nat.succ_le_succ (ih _)
        · simp [searchLoop, hraw, h1, h2]

/-- C4: for every behaviour of the search backend and of the validator's
reasoning service, the orchestrator issues at most 3 validation passes per
user question — zero-hit retries and reformulations included. -/
theorem C4_validation_budget (db : Nat → String → List SearchResult)
    (val : Nat → Nat → LlmResult) (message : String) (route : RouteDecision) :
    (searchWithValidation db val message route).validationAttempts.length ≤ 3 := by
  have h := searchLoop_validations_le db val message route MAX_ATTEMPTS
    (List.range' 1 MAX_ATTEMPTS)
    (if route.enhancement_keywords ≠ [] then
      String.intercalate " " route.enhancement_keywords
    else message)
  simpa [searchWithValidation, MAX_ATTEMPTS] using h

/-! ## Claim C2 — zero-hit retry semantics -/

/-- C2 (amended): when a search returns zero raw hits, no validation pass
is consumed, the query is simplified to its first token (kept unchanged
when it has at most one token), and the search is retried on the *next*
attempt slot — consuming an attempt from the budget; when the zero-hit
search occupied the last budgeted attempt, the loop stops with no
evidence. -/
theorem C2_zero_hit_step (db : Nat → String → List SearchResult)
    (val : Nat → Nat → LlmResult) (message : String) (route : RouteDecision)
    (M a : Nat) (rest : List Nat) (q : String) (hraw : db a q = []) :
    searchLoop db val message route M (a :: rest) q =
      (if a = M then
        { searchAttempts := [(a, q)], validationAttempts := [], result := [] }
      else
        let t := searchLoop db val message route M rest (firstTokenOrSame q)
        { searchAttempts := (a, q) :: t.searchAttempts,
          validationAttempts := t.validationAttempts,
          result := t.result }) := by
  by_cases hM : a = M
  · subst hM; simp [searchLoop, hraw]
  · simp [searchLoop, hraw, hM]

/-- C2 (amended, witness): with a search backend that never returns hits,
the three budgeted attempts are spent on zero-hit retries — queries
truncated to the first token — no validator call is ever made, and the
loop ends with no evidence. -/
theorem C2_witness :
    searchLoop (fun _ _ => []) (fun _ _ => LlmResult.malformed) "m" routeC3 3
      [1, 2, 3] "кафедра інформаційних технологій бюджет"
      = { searchAttempts := [(1, "кафедра інформаційних технологій бюджет"),
            (2, "кафедра"), (3, "кафедра")],
          validationAttempts := [], result := [] } := by
  have hft : firstTokenOrSame "кафедра інформаційних технологій бюджет" = "кафедра" := by
    decide
  have hft2 : firstTokenOrSame "кафедра" = "кафедра" := by decide
  rw [C2_zero_hit_step (fun _ _ => []) (fun _ _ => LlmResult.malformed) "m" routeC3 3 1
    [2, 3] "кафедра інформаційних технологій бюджет" rfl]
  rw [C2_zero_hit_step (fun _ _ => []) (fun _ _ => LlmResult.malformed) "m" routeC3 3 2
    [3] (firstTokenOrSame "кафедра інформаційних технологій бюджет") rfl]
  rw [C2_zero_hit_step (fun _ _ => []) (fun _ _ => LlmResult.malformed) "m" routeC3 3 3
    [] (firstTokenOrSame (firstTokenOrSame "кафедра інформаційних технологій бюджет")) rfl]
  simp [hft, hft2]

/-- The route the counterexample run uses (no enhancement keywords, so the
initial query is the raw message). -/
def routeC2 : RouteDecision :=
  { search_scope := "global", search_level := "general", target_entity := none,
    search_intent := "info", enhancement_keywords := [], confidence := 0.5,
    reasoning := "", needs_database_search := true }

def hitC2 : SearchResult :=
  { content := "doc", metadata := {}, distance := 1, relevance_score := 1,
    id := "h1", search_type := "routed" }

/-- Backend returning zero hits on attempt 1 and a hit afterwards. -/
def dbC2 (a : Nat) (_q : String) : List SearchResult :=
  if a = 1 then [] else [hitC2]

/-- C2 (counterexample): the zero-hit retry after attempt 1 runs as attempt
2 — it *does* consume an attempt slot: the retried search carries attempt
number 2 and the first (and only) validation pass happens at attempt 2,
not within attempt slot 1 as the claim states. -/
theorem C2_counterexample :
    (searchWithValidation dbC2 (fun _ _ => LlmResult.malformed)
        "кафедра інформаційних технологій бюджет" routeC2).searchAttempts
      = [(1, "кафедра інформаційних технологій бюджет"), (2, "кафедра")]
    ∧ (searchWithValidation dbC2 (fun _ _ => LlmResult.malformed)
        "кафедра інформаційних технологій бюджет" routeC2).validationAttempts = [2]
    ∧ (searchWithValidation dbC2 (fun _ _ => LlmResult.malformed)
        "кафедра інформаційних технологій бюджет" routeC2).validationAttempts ≠ [1] := by
  refine ⟨?_, ?_, ?_⟩ <;> decide

/-! ## Claim C5 — bounded termination under arbitrary oracle behaviour -/

theorem llmValidationFrom_congr (llm llm' : Nat → LlmResult) (n : Nat) :
    ∀ l : List Nat, (∀ a ∈ l, llm a = llm' a) →
      llmValidationFrom llm n l = llmValidationFrom llm' n l := by
  intro l
  induction l with
  | nil => intro _; rfl
  | cons a rest ih =>
    intro h
    have ha : llm a = llm' a := h a (List.mem_cons_self a rest)
    have hrest : ∀ b ∈ rest, llm b = llm' b :=
      fun b hb => h b (List.mem_cons_of_mem _ hb)
    simp only [llmValidationFrom, ha]
    cases llm' a with
    | parsed d => rfl
    | malformed => cases rest with
      | nil => rfl
      | cons b l => exact ih hrest
    | exn e => cases rest with
      | nil => rfl
      | cons b l => exact ih hrest

theorem llmRoutingFrom_congr (llm llm' : Nat → RouteLlmResult) :
    ∀ l : List Nat, (∀ a ∈ l, llm a = llm' a) →
      llmRoutingFrom llm l = llmRoutingFrom llm' l := by
  intro l
  induction l with
  | nil => intro _; rfl
  | cons a rest ih =>
    intro h
    have ha : llm a = llm' a := h a (List.mem_cons_self a rest)
    have hrest : ∀ b ∈ rest, llm b = llm' b :=
      fun b hb => h b (List.mem_cons_of_mem _ hb)
    simp only [llmRoutingFrom, ha]
    cases llm' a with
    | parsed d => rfl
    | malformed => exact ih hrest
    | exn e => exact ih hrest

theorem validateAndSelect_congr (llm llm' : Nat → LlmResult)
    (message : String) (raw : List SearchResult) (rr : String) (a : Nat)
    (h : ∀ r ∈ List.range' 1 3, llm r = llm' r) :
    validateAndSelect llm message raw rr a = validateAndSelect llm' message raw rr a := by
  unfold validateAndSelect
  rw [show llmValidation llm raw.length = llmValidation llm' raw.length from
    llmValidationFrom_congr llm llm' raw.length (List.range' 1 3) h]

theorem searchLoop_congr (db db' : Nat → String → List SearchResult)
    (val val' : Nat → Nat → LlmResult) (message : String) (route : RouteDecision)
    (M : Nat) :
    ∀ (l : List Nat) (q : String),
      (∀ a ∈ l, ∀ q', db a q' = db' a q') →
      (∀ a ∈ l, ∀ r ∈ List.range' 1 3, val a r = val' a r) →
      searchLoop db val message route M l q = searchLoop db' val' message route M l q := by
  intro l
  induction l with
  | nil => intro q _ _; rfl
  | cons a rest ih =>
    intro q hdb hval
    have hdba : db a q = db' a q := hdb a (List.mem_cons_self a rest) q
    have hdbrest : ∀ b ∈ rest, ∀ q', db b q' = db' b q' :=
      fun b hb => hdb b (List.mem_cons_of_mem _ hb)
    have hvalrest : ∀ b ∈ rest, ∀ r ∈ List.range' 1 3, val b r = val' b r :=
      fun b hb => hval b (List.mem_cons_of_mem _ hb)
    have ihq : ∀ q', searchLoop db val message route M rest q'
        = searchLoop db' val' message route M rest q' :=
      fun q' => ih q' hdbrest hvalrest
    have hvs : validateAndSelect (val a) message (db' a q) route.reasoning a
        = validateAndSelect (val' a) message (db' a q) route.reasoning a :=
      validateAndSelect_congr (val a) (val' a) message (db' a q) route.reasoning a
        (hval a (List.mem_cons_self a rest))
    simp only [searchLoop, hdba, hvs, ihq]

/-- C5: the retrieval loop is bounded and total for *every* behaviour of
the search backend and of the reasoning service (including one that always
returns malformed output): at most 3 searches and at most 3 validation
passes are made and the outcome depends only on the oracles' answers for
attempts 1–3 (and validation retries 1–3); likewise, a routing or
validation call consults its reasoning oracle on retries 1–3 only. -/
theorem C5_bounded_termination :
    (∀ (db db' : Nat → String → List SearchResult) (val val' : Nat → Nat → LlmResult)
        (message : String) (route : RouteDecision),
      (∀ a ∈ List.range' 1 MAX_ATTEMPTS, ∀ q', db a q' = db' a q') →
      (∀ a ∈ List.range' 1 MAX_ATTEMPTS, ∀ r ∈ List.range' 1 3, val a r = val' a r) →
      searchWithValidation db val message route = searchWithValidation db' val' message route)
    ∧ (∀ (db : Nat → String → List SearchResult) (val : Nat → Nat → LlmResult)
        (message : String) (route : RouteDecision),
      (searchWithValidation db val message route).searchAttempts.length ≤ MAX_ATTEMPTS
      ∧ (searchWithValidation db val message route).validationAttempts.length ≤ MAX_ATTEMPTS)
    ∧ (∀ (llm llm' : Nat → RouteLlmResult),
      (∀ a ∈ List.range' 1 3, llm a = llm' a) → llmRouting llm = llmRouting llm')
    ∧ (∀ (llm llm' : Nat → LlmResult) (n : Nat),
      (∀ a ∈ List.range' 1 3, llm a = llm' a) →
        llmValidation llm n = llmValidation llm' n) := by
  refine ⟨?_, ?_, ?_, ?_⟩
  · intro db db' val val' message route hdb hval
    unfold searchWithValidation
    exact searchLoop_congr db db' val val' message route MAX_ATTEMPTS
      (List.range' 1 MAX_ATTEMPTS) _ hdb hval
  · intro db val message route
    constructor
    · have h := searchLoop_searches_le db val message route MAX_ATTEMPTS
        (List.range' 1 MAX_ATTEMPTS)
        (if route.enhancement_keywords ≠ [] then
          String.intercalate " " route.enhancement_keywords
        else message)
      simpa [searchWithValidation, MAX_ATTEMPTS] using h
    · have h := searchLoop_validations_le db val message route MAX_ATTEMPTS
        (List.range' 1 MAX_ATTEMPTS)
        (if route.enhancement_keywords ≠ [] then
          String.intercalate " " route.enhancement_keywords
        else message)
      simpa [searchWithValidation, MAX_ATTEMPTS] using h
  · intro llm llm' h
    exact llmRoutingFrom_congr llm llm' (List.range' 1 3) h
  · intro llm llm' n h
    exact llmValidationFrom_congr llm llm' n (List.range' 1 3) h

/-- A backend that behaves exactly like the always-empty one on the three
budgeted attempts but would return hits beyond the budget. -/
def dbBeyondBudget (a : Nat) (_q : String) : List SearchResult :=
  if a ≤ 3 then [] else [hitC2]

/-- A reasoning oracle that is malformed on the three budgeted retries and
would parse beyond them. -/
def valBeyondBudget (_a r : Nat) : LlmResult :=
  if r ≤ 3 then .malformed else
    .parsed { is_relevant := true, selected_indices := [1], confidence := 1,
              reasoning := "", needs_reformulation := false }

/-- C5 (witness): oracles that differ only beyond the attempt/retry budget
produce identical runs — the loop provably never consults them there. -/
theorem C5_witness :
    searchWithValidation (fun _ _ => []) (fun _ _ => LlmResult.malformed) "q" routeC2
      = searchWithValidation dbBeyondBudget valBeyondBudget "q" routeC2 :=
  C5_bounded_termination.1 (fun _ _ => []) dbBeyondBudget
    (fun _ _ => LlmResult.malformed) valBeyondBudget "q" routeC2
    (by intro a ha q'; fin_cases ha <;> rfl)
    (by intro a ha r hr; fin_cases hr <;> rfl)

/-! ## Claim C6 — the result fuser -/

/-- The fused value of the vector hit `r` (0-based rank `i`) once the
keyword prefix `k` has been merged: boosted to hybrid when a lexical hit
with the same id exists, otherwise the plain seed entry. -/
def specVecEntry (k : List SearchResult) (i : Nat) (r : SearchResult) : SearchResult :=
  match k.find? (fun kr => kr.id = r.id) with
  | some kr =>
    { r with relevance_score := vecSeedScore r.distance i + kr.relevance_score * 2,
             search_type := "hybrid" }
  | none => seedEntry r i

/-- The fused list exactly as claim C6 describes it: every vector hit with
its seed score `max(0,(2-d)*50) + max(0,(10-rank)*5)`, plus `2 × lexical`
boost and origin "hybrid" when a lexical hit shares its id; lexical hits
with fresh ids appended with `3 × lexical` score. -/
def fuseSpec (e k : List SearchResult) : List SearchResult :=
  e.enum.map (fun p =>
    let seed : ℚ := max 0 ((2 - p.2.distance) * 50) + max 0 ((10 - (p.1 : ℚ)) * 5)
    match k.find? (fun kr => kr.id = p.2.id) with
    | some kr =>
      { p.2 with relevance_score := seed + kr.relevance_score * 2,
                 search_type := "hybrid" }
    | none =>
      { p.2 with relevance_score := seed, search_type := "embedding" })
  ++ (k.filter (fun kr => ¬ e.any (fun er => er.id = kr.id))).map
      (fun kr =>
        { kr with relevance_score := kr.relevance_score * 3, search_type := "keyword" })

/-- The state of the fused dict after seeding with the enumerated vector
hits `l` and merging the lexical prefix `k`. -/
def mergedState (l : List (Nat × SearchResult)) (k : List SearchResult) :
    List (String × SearchResult) :=
  l.map (fun p => (p.2.id, specVecEntry k p.1 p.2))
  ++ (k.filter (fun kr => ¬ l.any (fun p => p.2.id = kr.id))).map
      (fun kr => (kr.id, lexEntry kr))

theorem specVecEntry_nil (i : Nat) (r : SearchResult) :
    specVecEntry [] i r = seedEntry r i := rfl

theorem foldl_dictInsert_fresh {α : Type} (key : α → String) (v : α → SearchResult) :
    ∀ (l : List α) (m : List (String × SearchResult)),
      (l.map key).Nodup →
      (∀ a ∈ l, ∀ p ∈ m, p.1 ≠ key a) →
      l.foldl (fun m a => dictInsert m (key a) (v a)) m
        = m ++ l.map (fun a => (key a, v a)) := by
  intro l
  induction l with
  | nil => intro m _ _; simp
  | cons a rest ih =>
    intro m hnd hfresh
    have hnotmem : m.any (fun p => p.1 = key a) = false := by
      rw [List.any_eq_false]
      intro p hp
      simpa using hfresh a (List.mem_cons_self a rest) p hp
    have hins : dictInsert m (key a) (v a) = m ++ [(key a, v a)] := by
      unfold dictInsert
      rw [hnotmem]
      simp
    have hfresh' : ∀ b ∈ rest, ∀ p ∈ m ++ [(key a, v a)], p.1 ≠ key b := by
      intro b hb p hp
      rcases List.mem_append.1 hp with hp | hp
      · exact hfresh b (List.mem_cons_of_mem _ hb) p hp
      · have : p = (key a, v a) := by simpa using hp
        subst this
        have hka : key a ∉ rest.map key := by
          have := hnd
          simp only [List.map_cons, List.nodup_cons] at this
          exact this.1
        intro hcontra
        apply hka
        have h' : key a = key b := hcontra
        rw [h']
        exact List.mem_map_of_mem key hb
    calc (a :: rest).foldl (fun m a => dictInsert m (key a) (v a)) m
        = rest.foldl (fun m a => dictInsert m (key a) (v a)) (m ++ [(key a, v a)]) := by
          rw [List.foldl_cons, hins]
      _ = (m ++ [(key a, v a)]) ++ rest.map (fun a => (key a, v a)) := by
          refine ih (m ++ [(key a, v a)]) ?_ hfresh'
          have := hnd
          simp only [List.map_cons, List.nodup_cons] at this
          exact this.2
      _ = m ++ (a :: rest).map (fun a => (key a, v a)) := by
          simp [List.append_assoc]

theorem seedPhase_eq (e : List SearchResult)
    (he : (e.map (fun r => r.id)).Nodup) :
    seedPhase e = mergedState e.enum [] := by
  have hids : e.enum.map (fun p => p.2.id) = e.map (fun r => r.id) := by
    rw [show (fun p : Nat × SearchResult => p.2.id)
        = (fun r : SearchResult => r.id) ∘ Prod.snd from rfl]
    rw [← List.map_map, List.enum_map_snd]
  have h := foldl_dictInsert_fresh (fun p : Nat × SearchResult => p.2.id)
    (fun p => seedEntry p.2 p.1) e.enum [] (by rw [hids]; exact he)
    (by intro a _ p hp; simp at hp)
  unfold seedPhase
  rw [h]
  simp [mergedState, specVecEntry_nil]

theorem find?_keyed {α β : Type} (key : α → String) (v : α → β) (c : String) :
    ∀ l : List α, (l.map (fun a => (key a, v a))).find? (fun p => p.1 = c)
      = (l.find? (fun a => key a = c)).map (fun a => (key a, v a)) := by
  intro l
  induction l with
  | nil => rfl
  | cons a rest ih =>
    simp only [List.map_cons, List.find?_cons]
    by_cases h : key a = c
    · simp [h]
    · simp [h, ih]

theorem mergeStep_state (l : List (Nat × SearchResult)) (k : List SearchResult)
    (kr : SearchResult)
    (hl : (l.map (fun p => p.2.id)).Nodup)
    (hk : kr.id ∉ k.map (fun r => r.id)) :
    mergeStep (mergedState l k) kr = mergedState l (k ++ [kr]) := by
  have hkfind : k.find? (fun x => x.id = kr.id) = none := by
    rw [List.find?_eq_none]
    intro x hx hpx
    rw [decide_eq_true_eq] at hpx
    exact hk (hpx ▸ List.mem_map_of_mem (fun r => r.id) hx)
  have hB : ∀ q ∈ (k.filter (fun x => ¬ l.any (fun p => p.2.id = x.id))).map
      (fun x => (x.id, lexEntry x)), q.1 ≠ kr.id := by
    intro q hq
    obtain ⟨x, hx, rfl⟩ := List.mem_map.1 hq
    have hxk : x ∈ k := List.mem_of_mem_filter hx
    intro hcontra
    have hxid : x.id = kr.id := hcontra
    exact hk (hxid ▸ List.mem_map_of_mem (fun r => r.id) hxk)
  by_cases hmem : kr.id ∈ l.map (fun p => p.2.id)
  · -- the lexical hit boosts an existing vector entry
    have hsome : (l.find? (fun p => p.2.id = kr.id)).isSome := by
      rw [List.find?_isSome]
      obtain ⟨p, hp, hpid⟩ := List.mem_map.1 hmem
      exact ⟨p, hp, by simp [hpid]⟩
    obtain ⟨p₀, hfind⟩ := Option.isSome_iff_exists.1 hsome
    have hp₀l : p₀ ∈ l := List.mem_of_find?_eq_some hfind
    have hp₀id : p₀.2.id = kr.id := by
      have := List.find?_some hfind
      simpa using this
    have hspecp₀ : specVecEntry k p₀.1 p₀.2 = seedEntry p₀.2 p₀.1 := by
      unfold specVecEntry
      simp only [hp₀id, hkfind]
    have hcurEq : dictFind (mergedState l k) kr.id
        = some (seedEntry p₀.2 p₀.1) := by
      unfold dictFind mergedState
      rw [List.find?_append]
      rw [find?_keyed (fun p : Nat × SearchResult => p.2.id)
        (fun p => specVecEntry k p.1 p.2) kr.id l]
      rw [hfind]
      simp [hspecp₀]
    have hany : (mergedState l k).any (fun p => p.1 = kr.id) = true := by
      unfold mergedState
      rw [List.any_append]
      have hA : (l.map (fun p => (p.2.id, specVecEntry k p.1 p.2))).any
          (fun p => p.1 = kr.id) = true := by
        rw [List.any_eq_true]
        exact ⟨(p₀.2.id, specVecEntry k p₀.1 p₀.2),
          List.mem_map_of_mem _ hp₀l, by simp [hp₀id]⟩
      rw [hA, Bool.true_or]
    simp only [mergeStep, hcurEq]
    unfold dictInsert
    rw [hany]
    simp only [if_true]
    unfold mergedState
    rw [List.map_append]
    have hBid : ((k.filter (fun x => ¬ l.any (fun p => p.2.id = x.id))).map
        (fun x => (x.id, lexEntry x))).map
          (fun p => if p.1 = kr.id then (kr.id, hybridBoost (seedEntry p₀.2 p₀.1) kr)
                    else p)
        = (k.filter (fun x => ¬ l.any (fun p => p.2.id = x.id))).map
            (fun x => (x.id, lexEntry x)) := by
      rw [List.map_congr_left (fun q hq => if_neg (hB q hq))]
      simp
    have hfilter : (k ++ [kr]).filter (fun x => ¬ l.any (fun p => p.2.id = x.id))
        = k.filter (fun x => ¬ l.any (fun p => p.2.id = x.id)) := by
      rw [List.filter_append]
      have hlany : l.any (fun p => p.2.id = kr.id) = true := by
        rw [List.any_eq_true]
        exact ⟨p₀, hp₀l, by simp [hp₀id]⟩
      simp [hlany]
    rw [hBid, hfilter]
    congr 1
    rw [List.map_map]
    refine List.map_congr_left ?_
    intro p hp
    by_cases hpid : p.2.id = kr.id
    · have hpeq : p = p₀ :=
        List.inj_on_of_nodup_map hl hp hp₀l (by rw [hpid, hp₀id])
      subst hpeq
      simp only [Function.comp_apply, hpid, if_true, ite_true]
      have hfind2 : (k ++ [kr]).find? (fun x => x.id = p.2.id) = some kr := by
        rw [List.find?_append]
        have h1 : k.find? (fun x => x.id = p.2.id) = none := by
          simp only [hpid]
          exact hkfind
        rw [h1]
        simp [List.find?_cons, hpid.symm]
      unfold specVecEntry
      rw [hfind2]
      simp [hybridBoost, seedEntry, hpid]
    · simp only [Function.comp_apply, hpid, if_false, ite_false]
      have hfind2 : (k ++ [kr]).find? (fun x => x.id = p.2.id)
          = k.find? (fun x => x.id = p.2.id) := by
        rw [List.find?_append]
        have hdec : ¬ (kr.id = p.2.id) := fun hcontra => hpid hcontra.symm
        have h1 : [kr].find? (fun x => x.id = p.2.id) = none := by
          simp [List.find?_cons, hdec]
        rw [h1]
        exact Option.or_none
      unfold specVecEntry
      rw [hfind2]
  · -- fresh lexical entry appended
    have hlany : l.any (fun p => p.2.id = kr.id) = false := by
      rw [List.any_eq_false]
      intro p hp hpx
      rw [decide_eq_true_eq] at hpx
      exact hmem (hpx ▸ List.mem_map_of_mem (fun p => p.2.id) hp)
    have hlfind : l.find? (fun p => p.2.id = kr.id) = none := by
      rw [List.find?_eq_none]
      intro p hp hpx
      rw [decide_eq_true_eq] at hpx
      exact hmem (hpx ▸ List.mem_map_of_mem (fun p => p.2.id) hp)
    have hcurEq : dictFind (mergedState l k) kr.id = none := by
      unfold dictFind mergedState
      rw [List.find?_append]
      rw [find?_keyed (fun p : Nat × SearchResult => p.2.id)
        (fun p => specVecEntry k p.1 p.2) kr.id l]
      rw [hlfind]
      have hBfind : ((k.filter (fun x => ¬ l.any (fun p => p.2.id = x.id))).map
          (fun x => (x.id, lexEntry x))).find? (fun p => p.1 = kr.id) = none := by
        rw [List.find?_eq_none]
        intro q hq hqx
        rw [decide_eq_true_eq] at hqx
        exact hB q hq hqx
      rw [hBfind]
      rfl
    have hany : (mergedState l k).any (fun p => p.1 = kr.id) = false := by
      unfold mergedState
      rw [List.any_append]
      have hA : (l.map (fun p => (p.2.id, specVecEntry k p.1 p.2))).any
          (fun p => p.1 = kr.id) = false := by
        rw [List.any_eq_false]
        intro q hq hqx
        obtain ⟨p, hp, rfl⟩ := List.mem_map.1 hq
        rw [decide_eq_true_eq] at hqx
        exact hmem (hqx ▸ List.mem_map_of_mem (fun p => p.2.id) hp)
      have hBany : ((k.filter (fun x => ¬ l.any (fun p => p.2.id = x.id))).map
          (fun x => (x.id, lexEntry x))).any (fun p => p.1 = kr.id) = false := by
        rw [List.any_eq_false]
        intro q hq hqx
        rw [decide_eq_true_eq] at hqx
        exact hB q hq hqx
      rw [hA, hBany]
      rfl
    simp only [mergeStep, hcurEq]
    unfold dictInsert
    rw [hany]
    simp only [Bool.false_eq_true, if_false, ite_false]
    unfold mergedState
    have hA' : l.map (fun p => (p.2.id, specVecEntry (k ++ [kr]) p.1 p.2))
        = l.map (fun p => (p.2.id, specVecEntry k p.1 p.2)) := by
      refine List.map_congr_left ?_
      intro p hp
      have hpid : ¬ p.2.id = kr.id := by
        intro hcontra
        exact hmem (hcontra ▸ List.mem_map_of_mem (fun p => p.2.id) hp)
      have hfind2 : (k ++ [kr]).find? (fun x => x.id = p.2.id)
          = k.find? (fun x => x.id = p.2.id) := by
        rw [List.find?_append]
        have hdec : ¬ (kr.id = p.2.id) := fun hcontra => hpid hcontra.symm
        have h1 : [kr].find? (fun x => x.id = p.2.id) = none := by
          simp [List.find?_cons, hdec]
        rw [h1]
        exact Option.or_none
      unfold specVecEntry
      rw [hfind2]
    have hfilter : (k ++ [kr]).filter (fun x => ¬ l.any (fun p => p.2.id = x.id))
        = k.filter (fun x => ¬ l.any (fun p => p.2.id = x.id)) ++ [kr] := by
      rw [List.filter_append]
      simp [hlany]
    rw [hA', hfilter]
    simp [List.append_assoc]

theorem foldl_mergeStep (l : List (Nat × SearchResult)) :
    ∀ (k k₀ : List SearchResult),
      (l.map (fun p => p.2.id)).Nodup →
      ((k₀ ++ k).map (fun r => r.id)).Nodup →
      k.foldl mergeStep (mergedState l k₀) = mergedState l (k₀ ++ k) := by
  intro k
  induction k with
  | nil => intro k₀ _ _; rw [List.append_nil]; rfl
  | cons kr k' ih =>
    intro k₀ hl hk
    have hkr : kr.id ∉ k₀.map (fun r => r.id) := by
      rw [List.map_append] at hk
      rcases List.nodup_append.1 hk with ⟨_, _, hdis⟩
      intro hmem
      exact hdis hmem (by simp)
    have hk' : (((k₀ ++ [kr]) ++ k').map (fun r => r.id)).Nodup := by
      rw [List.append_assoc, List.singleton_append]
      exact hk
    rw [List.foldl_cons, mergeStep_state l k₀ kr hl hkr, ih (k₀ ++ [kr]) hl hk',
      List.append_assoc, List.singleton_append]

theorem any_map_comp {α β : Type} (f : α → β) (l : List α) (p : β → Bool) :
    (l.map f).any p = l.any (p ∘ f) := by
  induction l with
  | nil => rfl
  | cons a rest ih => simp [List.any_cons, ih]

theorem fused_values (e k : List SearchResult)
    (he : (e.map (fun r => r.id)).Nodup) (hk : (k.map (fun r => r.id)).Nodup) :
    (k.foldl mergeStep (seedPhase e)).map (fun p => p.2) = fuseSpec e k := by
  have hl : (e.enum.map (fun p => p.2.id)).Nodup := by
    rw [show (fun p : Nat × SearchResult => p.2.id)
        = (fun r : SearchResult => r.id) ∘ Prod.snd from rfl,
      ← List.map_map, List.enum_map_snd]
    exact he
  rw [seedPhase_eq e he, foldl_mergeStep e.enum k [] hl (by simpa using hk),
    List.nil_append]
  unfold mergedState fuseSpec
  rw [List.map_append, List.map_map, List.map_map]
  congr 1
  have hanyeq : ∀ kr : SearchResult,
      e.enum.any (fun p => p.2.id = kr.id) = e.any (fun er => er.id = kr.id) := by
    intro kr
    rw [show (fun p : Nat × SearchResult => decide (p.2.id = kr.id))
        = (fun er : SearchResult => decide (er.id = kr.id)) ∘ Prod.snd from rfl]
    conv_rhs => rw [← List.enum_map_snd e, any_map_comp]
  have hfilter : (k.filter (fun kr => ¬ e.enum.any (fun p => p.2.id = kr.id)))
      = k.filter (fun kr => ¬ e.any (fun er => er.id = kr.id)) := by
    refine List.filter_congr ?_
    intro kr _
    rw [hanyeq kr]
  rw [hfilter]
  refine List.map_congr_left ?_
  intro kr _
  rfl

/-- C6: under the unique-document-id invariant of the store,
`_combine_results` computes exactly the claim's fusion: vector hits seeded
with `max(0,(2-d)*50) + max(0,(10-rank)*5)`, lexical boosts of `2 × score`
marking entries hybrid, fresh lexical entries at `3 × score`, the whole
list sorted descending by final score and truncated to `topK`. -/
theorem C6_result_fuser (e k : List SearchResult) (topK : Nat)
    (he : (e.map (fun r => r.id)).Nodup) (hk : (k.map (fun r => r.id)).Nodup) :
    combineResults e k topK = ((fuseSpec e k).mergeSort scoreDesc).take topK
    ∧ ((combineResults e k topK).map (fun r => r.relevance_score)).Sorted (· ≥ ·)
    ∧ (combineResults e k topK).length ≤ topK := by
  have hval := fused_values e k he hk
  refine ⟨?_, ?_, ?_⟩
  · simp only [combineResults]
    rw [hval]
  · simp only [combineResults]
    rw [List.map_take]
    exact List.Pairwise.sublist (List.take_sublist _ _) (mergeSort_scores_sorted _)
  · simp only [combineResults]
    exact List.length_take_le _ _

def eC6 : List SearchResult :=
  [{ content := "x", metadata := {}, distance := 1, relevance_score := 0,
     id := "a", search_type := "embedding" },
   { content := "y", metadata := {}, distance := 1, relevance_score := 0,
     id := "b", search_type := "embedding" }]

def kC6 : List SearchResult :=
  [{ content := "y", metadata := {}, distance := 0, relevance_score := 10,
     id := "b", search_type := "keyword" },
   { content := "z", metadata := {}, distance := 0, relevance_score := 2,
     id := "c", search_type := "keyword" }]

/-- C6 (witness): a concrete two-vector/two-lexical fusion with unique ids
is sorted descending and truncated to `topK`. -/
theorem C6_witness :
    (combineResults eC6 kC6 2).length ≤ 2
    ∧ ((combineResults eC6 kC6 2).map (fun r => r.relevance_score)).Sorted (· ≥ ·) :=
  ⟨(C6_result_fuser eC6 kC6 2 (by decide) (by decide)).2.2,
   (C6_result_fuser eC6 kC6 2 (by decide) (by decide)).2.1⟩

end NAU
